import Mathlib

/-!
Verification development for the scopus-data-processor repository.

The core pipeline lives in `src/utils.py`:
`normalize_title`, `find_new_articles`, `extract_affiliation_authors`,
`map_departments`, `process_scopus_data`.

Modelling conventions:
- A pandas cell is a `Cell` (`na` models NaN / a missing value, `str`
  a string value, `int` an integer value such as a year).
- A data-frame row is an association list from column names to cells; a
  column access `row[c]` raises `KeyError` when the column is absent,
  which the embedding models with `Except PyErr`.  Frames are lists of
  rows (schema tracked per row).
- The department-mapping table always carries its two columns
  (`Author Name`, `Departament`), as created by the caller in
  `src/app.py`; its rows are modelled structurally.
- `fuzz.ratio` comes from the external `fuzzywuzzy` library, which is
  not part of this repository; the embedding takes the similarity
  function as an explicit parameter `ratio : String → String → Nat`
  producing scores in `[0, 100]`.  Facts about it that a claim needs
  (e.g. `ratio s s = 100` for identical strings) appear as hypotheses.
- Python exceptions are modelled by `Except PyErr`: an exception thrown
  anywhere inside `process_scopus_data` propagates out unchanged, so the
  observable behaviour is exactly the returned `Except` value.
-/

/-- A pandas cell value: NaN / missing, a string, or an integer. -/
inductive Cell where
  | na
  | str (s : String)
  | int (n : Int)
deriving Repr, DecidableEq

/-- A data-frame row: association list from column name to cell. -/
abbrev Row := List (String × Cell)

/-- Python exceptions raised by the embedded code. -/
inductive PyErr where
  | keyError (col : String)
  | typeError
deriving Repr, DecidableEq

/-- `c in row`: the cell of column `c` when present (`row.get(c)` style). -/
def colFind (r : Row) (c : String) : Option Cell :=
  (r.find? (fun p => p.1 == c)).map (fun p => p.2)

/-- `row[c]`: raises `KeyError` when the column is absent. -/
def colGet (r : Row) (c : String) : Except PyErr Cell :=
  match colFind r c with
  | some v => .ok v
  | none => .error (.keyError c)

/-- Python `str(cell)` (only applied to non-NaN cells by the code paths
we model; `str(nan)` would be `"nan"`). -/
def cellStr : Cell → String
  | .na => "nan"
  | .str s => s
  | .int n => toString n

/-- ASCII whitespace recognised by Python `str.strip` and `\s`. -/
def isPySpace (c : Char) : Bool :=
  c == ' ' || c == '\t' || c == '\n' || c == '\r' || c == '\x0b' || c == '\x0c'

/-- Python `str.strip()` on a character list. -/
def pyStripL (cs : List Char) : List Char :=
  ((cs.dropWhile isPySpace).reverse.dropWhile isPySpace).reverse

/-- Python `str.strip()`. -/
def pyStrip (s : String) : String := String.mk (pyStripL s.data)

/-- Python `str.lower()` (ASCII). -/
def pyLower (s : String) : String := String.mk (s.data.map Char.toLower)

/-- Python `str.split(sep)` for a single-character separator, on a
character list; an empty string splits to `[""]`, like Python. -/
def splitChar (sep : Char) : List Char → List (List Char)
  | [] => [[]]
  | c :: cs =>
    let r := splitChar sep cs
    if c == sep then [] :: r
    else
      match r with
      | [] => [[c]]
      | h :: t => (c :: h) :: t

/-- Python `str.split(sep)` for a single-character separator. -/
def pySplit (sep : Char) (s : String) : List String :=
  (splitChar sep s.data).map String.mk

/-- Python `sep.join(xs)`. -/
def pyJoin (sep : String) : List String → String
  | [] => ""
  | [x] => x
  | x :: xs => x ++ sep ++ pyJoin sep xs

/-- Whether `needle` occurs as a contiguous substring of `hay`
(Python `needle in hay`), on character lists. -/
def listContains (hay needle : List Char) : Bool :=
  match hay with
  | [] => needle.isEmpty
  | _ :: t => needle.isPrefixOf hay || listContains t needle

/-- Python `needle in hay` substring test. -/
def pyContains (hay needle : String) : Bool := listContains hay.data needle.data

/-- Collapse runs of spaces to a single space (the effect of
`re.sub(r'\s+', ' ', s)` once every whitespace character has been mapped
to a space). -/
def squeezeSpaces : List Char → List Char
  | [] => []
  | [c] => [c]
  | a :: b :: rest =>
    if a == ' ' && b == ' ' then squeezeSpaces (b :: rest)
    else a :: squeezeSpaces (b :: rest)

/-- `normalize_title` (src/utils.py lines 12-19): NaN becomes `""`;
otherwise lowercase, strip, and collapse internal whitespace runs to
single spaces. -/
def normalize_title (title : Cell) : String :=
  match title with
  | .na => ""
  | t =>
    String.mk (squeezeSpaces
      ((pyStripL (pyLower (cellStr t)).data).map (fun c => if isPySpace c then ' ' else c)))

/-- One entry of the `duplicates_info` list built by `find_new_articles`:
the raw source title, the (normalized) matched reference title, and the
similarity score of the first qualifying match. -/
structure DupInfo where
  source_title : Cell
  matched_title : String
  similarity : Nat
deriving Repr, DecidableEq

/-- `df_existing['Title'].apply(normalize_title).tolist()`
(src/utils.py line 36); `KeyError` when the `Title` column is absent. -/
def existingNormTitles : List Row → Except PyErr (List String)
  | [] => .ok []
  | r :: rs =>
    match colGet r "Title" with
    | .error e => .error e
    | .ok c =>
      match existingNormTitles rs with
      | .error e => .error e
      | .ok ts => .ok (normalize_title c :: ts)

/-- The inner scan of `find_new_articles` (src/utils.py lines 49-63):
walk the normalized reference titles in order, tracking the best score
seen (dead after the loop, as in the source), and stop at the first
title whose similarity meets the threshold, returning it with its
score. -/
def dupScan (ratio : String → String → Nat) (source_title : String) (threshold : Nat) :
    List String → Nat × String → Option (String × Nat)
  | [], _ => none
  | t :: ts, best =>
    let similarity := ratio source_title t
    let best := if best.1 < similarity then (similarity, t) else best
    if threshold ≤ similarity then some (t, similarity)
    else dupScan ratio source_title threshold ts best

/-- The per-row loop of `find_new_articles` (src/utils.py lines 41-67):
each source row is kept (in order) when no reference title qualifies,
and otherwise contributes one `DupInfo` report. -/
def findNewGo (ratio : String → String → Nat) (threshold : Nat) (ets : List String) :
    List Row → Except PyErr (List Row × List DupInfo)
  | [] => .ok ([], [])
  | row :: rest =>
    match colGet row "Title" with
    | .error e => .error e
    | .ok tc =>
      match dupScan ratio (normalize_title tc) threshold ets (0, "") with
      | some m =>
        match findNewGo ratio threshold ets rest with
        | .error e => .error e
        | .ok (news, dups) => .ok (news, ⟨tc, m.1, m.2⟩ :: dups)
      | none =>
        match findNewGo ratio threshold ets rest with
        | .error e => .error e
        | .ok (news, dups) => .ok (row :: news, dups)

/-- `find_new_articles` (src/utils.py lines 22-71), with the external
`fuzz.ratio` passed in as `ratio`. -/
def find_new_articles (ratio : String → String → Nat)
    (df_source df_existing : List Row) (threshold : Nat) :
    Except PyErr (List Row × List DupInfo) :=
  match existingNormTitles df_existing with
  | .error e => .error e
  | .ok ets => findNewGo ratio threshold ets df_source

/-- Declarative companion (the spec's words for §4.2): the first
reference title, in given order, whose score meets the threshold,
together with its score. -/
def firstQualifying (ratio : String → String → Nat) (threshold : Nat)
    (st : String) (ets : List String) : Option (String × Nat) :=
  (ets.find? (fun t => decide (threshold ≤ ratio st t))).map (fun t => (t, ratio st t))

/-- Each source row paired with its raw title cell and normalized title. -/
def titleTriples : List Row → Except PyErr (List (Row × Cell × String))
  | [] => .ok []
  | r :: rs =>
    match colGet r "Title" with
    | .error e => .error e
    | .ok c =>
      match titleTriples rs with
      | .error e => .error e
      | .ok ts => .ok ((r, c, normalize_title c) :: ts)

/-- Declarative companion: the order-preserved subsequence of source
rows having no qualifying match. -/
def specNews (ratio : String → String → Nat) (threshold : Nat) (ets : List String)
    (ts : List (Row × Cell × String)) : List Row :=
  ts.filterMap (fun t =>
    if (firstQualifying ratio threshold t.2.2 ets).isSome then none else some t.1)

/-- Declarative companion: one report per excluded source row, naming
the first qualifying reference title and its score. -/
def specDups (ratio : String → String → Nat) (threshold : Nat) (ets : List String)
    (ts : List (Row × Cell × String)) : List DupInfo :=
  ts.filterMap (fun t =>
    (firstQualifying ratio threshold t.2.2 ets).map (fun m => ⟨t.2.1, m.1, m.2⟩))

/-- Declarative description of the duplicate detector, following the
spec's §4.2 wording: first-match policy over reference titles in given
order, order-preserved survivors, one report per excluded record. -/
def findNewArticlesSpec (ratio : String → String → Nat)
    (df_source df_existing : List Row) (threshold : Nat) :
    Except PyErr (List Row × List DupInfo) :=
  match existingNormTitles df_existing with
  | .error e => .error e
  | .ok ets =>
    match titleTriples df_source with
    | .error e => .error e
    | .ok ts => .ok (specNews ratio threshold ets ts, specDups ratio threshold ets ts)

example : normalize_title (.str "  Deep  Learning\tIN  Healthcare ") = "deep learning in healthcare" := by
  decide

example : normalize_title .na = "" := rfl

/-- One author's lookup data parsed from an `Author full names` entry:
`(last name, full name, id)`. -/
abbrev NameEntry := String × String × String

/-- The tail test of `re.match(r'(.+?)\s*\((\d+)\)', part)` after a
candidate capture for group 1: skip whitespace, then require a literal
open parenthesis, a non-empty digit run, and a close parenthesis;
returns the digits (group 2). -/
def reTail (t : List Char) : Option String :=
  match t.dropWhile isPySpace with
  | '(' :: u =>
    match u.takeWhile Char.isDigit, u.dropWhile Char.isDigit with
    | [], _ => none
    | ds, ')' :: _ => some (String.mk ds)
    | _, _ => none
  | _ => none

/-- Lazy scan for `(.+?)`: try group-1 prefixes in increasing length and
return the first one whose remainder passes `reTail`. -/
def reScan (acc : List Char) : List Char → Option (String × String)
  | [] => none
  | c :: rest =>
    match reTail rest with
    | some ds => some (String.mk (acc ++ [c]), ds)
    | none => reScan (acc ++ [c]) rest

/-- `re.match(r'(.+?)\s*\((\d+)\)', s)`: groups 1 and 2 when the
anchored lazy pattern matches a prefix of `s`, else `none`. -/
def matchNameId (s : String) : Option (String × String) := reScan [] s.data

/-- One iteration of the full-name indexing loop
(src/utils.py lines 107-118): strip the entry, run the regex, and when
it matches produce the `(last name, full name, id)` record; a malformed
entry contributes nothing. -/
def parseFullNameEntry (part : String) : Option NameEntry :=
  match matchNameId (pyStrip part) with
  | none => none
  | some (g1, g2) =>
    let name := pyStrip g1
    let authorId := pyStrip g2
    let nameParts := pySplit ',' name
    let lastName := pyStrip (nameParts.headD "")
    some (lastName, name, authorId)

/-- The `full_names_dict` built by `extract_affiliation_authors`
(src/utils.py lines 102-118), kept as the insertion-ordered list of
parsed entries; dictionary overwrite is realised by `dictFind` taking
the last entry with the key. -/
def buildFullNamesDict (author_full_names : Cell) : List NameEntry :=
  match author_full_names with
  | .na => []
  | c => (pySplit ';' (cellStr c)).filterMap parseFullNameEntry

/-- Python-dict lookup over the insertion list: the latest assignment to
a key wins, exactly as `full_names_dict[last_name] = ...` overwrites. -/
def dictFind (d : List NameEntry) (k : String) : Option (String × String) :=
  (d.reverse.find? (fun e => e.1 == k)).map (fun e => e.2)

/-- Result of `extract_affiliation_authors`. -/
structure Extracted where
  authors_short : String
  authors_with_ids : String
  authors_full : String
  count : Nat
deriving Repr, DecidableEq

/-- The block-classification loop of `extract_affiliation_authors`
(src/utils.py lines 121-151), returning the three accumulated name
lists in block order. -/
def extractBlocks (d : List NameEntry) (kws : List String) :
    List String → List String × List String × List String
  | [] => ([], [], [])
  | b :: bs =>
    let block := pyStrip b
    let rest := extractBlocks d kws bs
    if block == "" then rest
    else if kws.any (fun k => pyContains (pyLower block) (pyLower k)) then
      let parts := pySplit ',' block
      if 2 ≤ parts.length then
        let lastName := pyStrip (parts.headD "")
        let firstName := pyStrip (parts.getD 1 "")
        let firstInitial := if firstName == "" then "" else String.mk [firstName.data.headD ' '] ++ "."
        let shortName := lastName ++ ", " ++ firstInitial
        match dictFind d lastName with
        | some fi =>
          (shortName :: rest.1, (fi.1 ++ " (" ++ fi.2 ++ ")") :: rest.2.1, fi.1 :: rest.2.2)
        | none =>
          let fullName := lastName ++ ", " ++ firstName
          (shortName :: rest.1, fullName :: rest.2.1, fullName :: rest.2.2)
      else rest
    else rest

/-- `extract_affiliation_authors` (src/utils.py lines 74-158).  The
`keywords` argument is `none` when the caller passes `None` (the
`process_scopus_data` default): iterating `None` raises `TypeError` at
the first non-empty block. -/
def extract_affiliation_authors (authors_with_affiliations author_full_names : Cell)
    (keywords : Option (List String)) : Except PyErr Extracted :=
  match authors_with_affiliations with
  | .na => .ok ⟨"", "", "", 0⟩
  | aw =>
    let author_blocks := pySplit ';' (cellStr aw)
    let d := buildFullNamesDict author_full_names
    match keywords with
    | none =>
      if author_blocks.all (fun b => pyStrip b == "") then .ok ⟨"", "", "", 0⟩
      else .error .typeError
    | some kws =>
      let r := extractBlocks d kws author_blocks
      .ok ⟨pyJoin "; " r.1, pyJoin "; " r.2.1, pyJoin "; " r.2.2, r.1.length⟩

/-- Spec-companion lookup (§4.3 step 1 as worded): the latest full-name
entry in the string whose last-name component equals the key. -/
def latestLookup (d : List NameEntry) (k : String) : Option (String × String) :=
  ((d.filter (fun e => e.1 == k)).getLast?).map (fun e => e.2)

/-- The block loop with the dictionary lookup replaced by
`latestLookup`; used to state that the extractor's with-ID and
full-name outputs come from the last occurring full-name entry. -/
def extractBlocksLatest (d : List NameEntry) (kws : List String) :
    List String → List String × List String × List String
  | [] => ([], [], [])
  | b :: bs =>
    let block := pyStrip b
    let rest := extractBlocksLatest d kws bs
    if block == "" then rest
    else if kws.any (fun k => pyContains (pyLower block) (pyLower k)) then
      let parts := pySplit ',' block
      if 2 ≤ parts.length then
        let lastName := pyStrip (parts.headD "")
        let firstName := pyStrip (parts.getD 1 "")
        let firstInitial := if firstName == "" then "" else String.mk [firstName.data.headD ' '] ++ "."
        let shortName := lastName ++ ", " ++ firstInitial
        match latestLookup d lastName with
        | some fi =>
          (shortName :: rest.1, (fi.1 ++ " (" ++ fi.2 ++ ")") :: rest.2.1, fi.1 :: rest.2.2)
        | none =>
          let fullName := lastName ++ ", " ++ firstName
          (shortName :: rest.1, fullName :: rest.2.1, fullName :: rest.2.2)
      else rest
    else rest

/-- The extractor as the spec words it: identifier lookup resolved to
the latest entry sharing the last name. -/
def extractAffiliationAuthorsLatest (authors_with_affiliations author_full_names : Cell)
    (keywords : Option (List String)) : Except PyErr Extracted :=
  match authors_with_affiliations with
  | .na => .ok ⟨"", "", "", 0⟩
  | aw =>
    let author_blocks := pySplit ';' (cellStr aw)
    let d := buildFullNamesDict author_full_names
    match keywords with
    | none =>
      if author_blocks.all (fun b => pyStrip b == "") then .ok ⟨"", "", "", 0⟩
      else .error .typeError
    | some kws =>
      let r := extractBlocksLatest d kws author_blocks
      .ok ⟨pyJoin "; " r.1, pyJoin "; " r.2.1, pyJoin "; " r.2.2, r.1.length⟩

/-- Why a result record is highlighted for review. -/
inductive HighlightReason where
  | not_found
  | multiple
deriving Repr, DecidableEq

/-- One row of the department-mapping table: the `Author Name` and
`Departament` cells (string or NaN). -/
structure DeptRow where
  authorName : Option String
  departament : Option String
deriving Repr, DecidableEq

/-- The case-insensitive author match of `map_departments`
(src/utils.py lines 188-190); a NaN author-name cell never matches. -/
def deptRowMatches (author : String) (dr : DeptRow) : Bool :=
  match dr.authorName with
  | some s => pyLower s == pyLower author
  | none => false

/-- The department contributed by one matching row
(src/utils.py lines 197-200): the stripped value when it is neither NaN
nor blank. -/
def deptRowValue (dr : DeptRow) : Option String :=
  match dr.departament with
  | some d => if pyStrip d == "" then none else some (pyStrip d)
  | none => none

/-- Order-preserving de-duplication, as `list(dict.fromkeys(...))`. -/
def dedupAux : List String → List String → List String
  | [], _ => []
  | x :: xs, seen =>
    if seen.contains x then dedupAux xs seen else x :: dedupAux xs (x :: seen)

/-- `list(dict.fromkeys(departments))` (src/utils.py line 203). -/
def dedup (xs : List String) : List String := dedupAux xs []

/-- The author loop of `map_departments` (src/utils.py lines 186-200):
collect the departments of matching rows in order, and record unmatched
authors, both in iteration order. -/
def deptLoop (m : List DeptRow) : List String → List String × List String
  | [] => ([], [])
  | a :: tl =>
    let ms := m.filter (deptRowMatches a)
    let rest := deptLoop m tl
    if ms.isEmpty then (rest.1, a :: rest.2)
    else (ms.filterMap deptRowValue ++ rest.1, rest.2)

/-- Result of `map_departments`. -/
structure DeptResult where
  department : String
  needs_highlight : Bool
  reason : Option HighlightReason
  not_found_authors : List String
deriving Repr, DecidableEq

/-- `map_departments` (src/utils.py lines 161-225); `authors_string` is
`none` when the value is NaN. -/
def map_departments (authors_string : Option String) (df_dept_mapping : List DeptRow) :
    DeptResult :=
  match authors_string with
  | none => ⟨"", false, none, []⟩
  | some s =>
    if pyStrip s == "" then ⟨"", false, none, []⟩
    else
      let authors := ((pySplit ';' s).map pyStrip).filter (fun a => a != "")
      let r := deptLoop df_dept_mapping authors
      let departments := dedup r.1
      if r.2.isEmpty then
        if 1 < departments.length then
          ⟨pyJoin "; " departments, true, some .multiple, r.2⟩
        else
          ⟨pyJoin "; " departments, false, none, r.2⟩
      else
        ⟨pyJoin "; " departments, true, some .not_found, r.2⟩

/-- The statistics dictionary of `process_scopus_data`
(src/utils.py lines 251-263). -/
structure Stats where
  original_scopus_count : Nat
  original_united_count : Nat
  after_year_filter_scopus : Nat
  after_year_filter_united : Nat
  after_title_filter : Nat
  excluded_by_title : Nat
  new_articles : Nat
  duplicates_found : Nat
  affiliated_articles : Nat
  no_affiliated_authors : Nat
  highlighted_depts : Nat
deriving Repr, DecidableEq

/-- The `year` argument: a single year or a list of years (`None` is
modelled by `Option`). -/
inductive YearParam where
  | single (y : Int)
  | multi (ys : List Int)
deriving Repr, DecidableEq

/-- `[year] if isinstance(year, int) else year` (src/utils.py line 268). -/
def yearsList : YearParam → List Int
  | .single y => [y]
  | .multi ys => ys

/-- `cell in years_list` as evaluated by `.isin(years_list)`: only an
integer cell can match; NaN and strings never do. -/
def cellInYears (c : Cell) (ys : List Int) : Bool :=
  match c with
  | .int n => ys.contains n
  | _ => false

/-- `df[df['Year'].isin(years_list)]` (src/utils.py lines 271, 275);
`KeyError` when the `Year` column is absent. -/
def filterYearRows (ys : List Int) : List Row → Except PyErr (List Row)
  | [] => .ok []
  | r :: rs =>
    match colGet r "Year" with
    | .error e => .error e
    | .ok c =>
      match filterYearRows ys rs with
      | .error e => .error e
      | .ok rest => .ok (if cellInYears c ys then r :: rest else rest)

/-- `should_keep_article` (src/utils.py lines 286-294): keep a NaN
title; otherwise drop when any exclusion keyword occurs
case-insensitively in the title. -/
def shouldKeepTitle (kws : List String) (c : Cell) : Bool :=
  match c with
  | .na => true
  | c => !(kws.any (fun k => pyContains (pyLower (cellStr c)) (pyLower k)))

/-- `df_source[df_source['Title'].apply(should_keep_article)]`
(src/utils.py line 296). -/
def filterTitleRows (kws : List String) : List Row → Except PyErr (List Row)
  | [] => .ok []
  | r :: rs =>
    match colGet r "Title" with
    | .error e => .error e
    | .ok c =>
      match filterTitleRows kws rs with
      | .error e => .error e
      | .ok rest => .ok (if shouldKeepTitle kws c then r :: rest else rest)

/-- The year-filter stage of `process_scopus_data`
(src/utils.py lines 265-279), updating the two after-year counters. -/
def applyYearFilter (year : Option YearParam) (src ex : List Row) (stats : Stats) :
    Except PyErr (List Row × List Row × Stats) :=
  match year with
  | some yp =>
    match filterYearRows (yearsList yp) src with
    | .error e => .error e
    | .ok src1 =>
      match filterYearRows (yearsList yp) ex with
      | .error e => .error e
      | .ok ex1 =>
        .ok (src1, ex1, { stats with
          after_year_filter_scopus := src1.length
          after_year_filter_united := ex1.length })
  | none =>
    .ok (src, ex, { stats with
      after_year_filter_scopus := src.length
      after_year_filter_united := ex.length })

/-- The title-exclusion stage of `process_scopus_data`
(src/utils.py lines 281-301); `None` or an empty keyword list skips the
filter (Python truthiness of the list). -/
def applyTitleFilter (tkw : Option (List String)) (src : List Row) (stats : Stats) :
    Except PyErr (List Row × Stats) :=
  match tkw with
  | some kws =>
    if kws.isEmpty then .ok (src, { stats with after_title_filter := src.length })
    else
      match filterTitleRows kws src with
      | .error e => .error e
      | .ok src1 =>
        .ok (src1, { stats with
          excluded_by_title := src.length - src1.length
          after_title_filter := src1.length })
  | none => .ok (src, { stats with after_title_filter := src.length })

/-- One output record of the pipeline (src/utils.py lines 337-358);
`tqdimat` stands for the constant-blank `Təqdimat` column and
`data_col` for the constant-blank `Data` column. -/
structure ResultRow where
  departament : String
  authors : String
  authorsAll : Cell
  author_full_names : Cell
  title : Cell
  year : Cell
  source_title : Cell
  volume : Cell
  issue : Cell
  art_no : Cell
  page_start : Cell
  page_end : Cell
  page_count : Cell
  source : String
  tqdimat : String
  data_col : String
  amount : String
  quartil : String
  highlight : Bool
  highlight_reason : Option HighlightReason
deriving Repr, DecidableEq

/-- `row[c] if c in row else ''` (src/utils.py lines 340-350). -/
def optCol (r : Row) (c : String) : Cell :=
  (colFind r c).getD (.str "")

/-- `row['Year'] if 'Year' in row and pd.notna(row['Year']) else ''`
(src/utils.py line 343). -/
def yearCol (r : Row) : Cell :=
  match colFind r "Year" with
  | some .na => .str ""
  | some c => c
  | none => .str ""

/-- The per-article loop of `process_scopus_data`
(src/utils.py lines 313-360): records with extractor count 0 are
dropped with `no_affiliated_authors` incremented; the rest are resolved
and assembled into `ResultRow`s in order. -/
def processLoop (keywords : Option (List String)) (dept : List DeptRow) :
    List Row → Stats → Except PyErr (List ResultRow × Stats)
  | [], stats => .ok ([], stats)
  | row :: rest, stats =>
    match colGet row "Authors with affiliations" with
    | .error e => .error e
    | .ok awa =>
      match colGet row "Author full names" with
      | .error e => .error e
      | .ok afn =>
        match extract_affiliation_authors awa afn keywords with
        | .error e => .error e
        | .ok ainfo =>
          if ainfo.count == 0 then
            processLoop keywords dept rest
              { stats with no_affiliated_authors := stats.no_affiliated_authors + 1 }
          else
            let stats1 := { stats with affiliated_articles := stats.affiliated_articles + 1 }
            let dinfo := map_departments (some ainfo.authors_short) dept
            let stats2 :=
              if dinfo.needs_highlight then
                { stats1 with highlighted_depts := stats1.highlighted_depts + 1 }
              else stats1
            match colGet row "Title" with
            | .error e => .error e
            | .ok titleCell =>
              match processLoop keywords dept rest stats2 with
              | .error e => .error e
              | .ok (rs, st) =>
                .ok ({ departament := dinfo.department
                       authors := ainfo.authors_short
                       authorsAll := optCol row "Authors"
                       author_full_names := optCol row "Author full names"
                       title := titleCell
                       year := yearCol row
                       source_title := optCol row "Source title"
                       volume := optCol row "Volume"
                       issue := optCol row "Issue"
                       art_no := optCol row "Art. No."
                       page_start := optCol row "Page start"
                       page_end := optCol row "Page end"
                       page_count := optCol row "Page count"
                       source := "Scopus"
                       tqdimat := ""
                       data_col := ""
                       amount := ""
                       quartil := ""
                       highlight := dinfo.needs_highlight
                       highlight_reason := dinfo.reason } :: rs, st)

/-- `process_scopus_data` (src/utils.py lines 228-365): year filter,
title-exclusion filter, duplicate detection, early return when nothing
survives, then the per-article enrichment loop. -/
def process_scopus_data (ratio : String → String → Nat)
    (df_source df_existing : List Row) (df_dept_mapping : List DeptRow)
    (threshold : Nat) (year : Option YearParam)
    (title_exclude_keywords : Option (List String))
    (affiliation_keywords : Option (List String)) :
    Except PyErr (List ResultRow × Stats) :=
  let stats0 : Stats :=
    { original_scopus_count := df_source.length
      original_united_count := df_existing.length
      after_year_filter_scopus := 0
      after_year_filter_united := 0
      after_title_filter := 0
      excluded_by_title := 0
      new_articles := 0
      duplicates_found := 0
      affiliated_articles := 0
      no_affiliated_authors := 0
      highlighted_depts := 0 }
  match applyYearFilter year df_source df_existing stats0 with
  | .error e => .error e
  | .ok (src1, ex1, stats1) =>
    match applyTitleFilter title_exclude_keywords src1 stats1 with
    | .error e => .error e
    | .ok (src2, stats2) =>
      match find_new_articles ratio src2 ex1 threshold with
      | .error e => .error e
      | .ok (dfNew, duplicates) =>
        let stats3 := { stats2 with
          new_articles := dfNew.length
          duplicates_found := duplicates.length }
        if dfNew.isEmpty then .ok ([], stats3)
        else processLoop affiliation_keywords df_dept_mapping dfNew stats3

/-- The parameter names of `process_scopus_data`
(src/utils.py lines 228-230). -/
def processScopusDataParams : List String :=
  ["df_source", "df_existing", "df_dept_mapping", "threshold", "year",
   "title_exclude_keywords", "affiliation_keywords"]

/-- The keyword arguments supplied by the call in `src/app.py`
lines 203-212. -/
def appProcessCallKeywordArgs : List String :=
  ["threshold", "year", "title_exclude_keywords", "affiliation_keywords",
   "affiliation_exclude_keywords"]

/-- Python keyword binding: a call is accepted only when every keyword
argument names a parameter of the callee; an unexpected keyword raises
`TypeError`. -/
def pyKeywordsAccepted (params kwargs : List String) : Bool :=
  kwargs.all (fun k => params.contains k)

/-- The break-at-threshold scan equals the first-qualifying-title
search, whatever best-score accumulator is carried. -/
theorem dupScan_eq (ratio : String → String → Nat) (st : String) (thr : Nat) :
    ∀ (ets : List String) (best : Nat × String),
      dupScan ratio st thr ets best = firstQualifying ratio thr st ets := by
  intro ets
  induction ets with
  | nil => intro best; rfl
  | cons t ts ih =>
    intro best
    by_cases h : thr ≤ ratio st t
    · simp [dupScan, firstQualifying, List.find?_cons, h]
    · simp only [dupScan, if_neg h]
      rw [ih]
      simp [firstQualifying, List.find?_cons, h]

/-- The row loop of `find_new_articles` computes the declarative
survivors and reports from the title triples. -/
theorem findNewGo_eq (ratio : String → String → Nat) (thr : Nat) (ets : List String) :
    ∀ src : List Row,
      findNewGo ratio thr ets src =
        (titleTriples src).map
          (fun ts => (specNews ratio thr ets ts, specDups ratio thr ets ts)) := by
  intro src
  induction src with
  | nil => rfl
  | cons r rs ih =>
    simp only [findNewGo, titleTriples]
    cases hc : colGet r "Title" with
    | error e => simp [Except.map]
    | ok c =>
      dsimp only
      rw [dupScan_eq]
      rw [ih]
      cases ht : titleTriples rs with
      | error e => cases firstQualifying ratio thr (normalize_title c) ets <;> simp [Except.map]
      | ok ts =>
        cases hfq : firstQualifying ratio thr (normalize_title c) ets with
        | some m => simp [Except.map, specNews, specDups, List.filterMap_cons, hfq]
        | none => simp [Except.map, specNews, specDups, List.filterMap_cons, hfq]

/-- Helper: the duplicate detector equals its declarative companion. -/
theorem find_new_articles_eq_spec (ratio : String → String → Nat)
    (df_source df_existing : List Row) (threshold : Nat) :
    find_new_articles ratio df_source df_existing threshold =
      findNewArticlesSpec ratio df_source df_existing threshold := by
  unfold find_new_articles findNewArticlesSpec
  cases he : existingNormTitles df_existing with
  | error e => rfl
  | ok ets =>
    dsimp only
    rw [findNewGo_eq]
    cases ht : titleTriples df_source with
    | error e => rfl
    | ok ts => rfl

/-- C2: for every sequence of source records, reference records and
threshold, `find_new_articles` scans the normalized reference titles in
their given order, declares a record a duplicate at the first reference
title whose score meets or exceeds the threshold (never considering a
later title), and returns the order-preserved subsequence of source
records with no qualifying match together with one report — source
title, first qualifying reference title, score — per excluded record. -/
theorem c2_find_new_articles_first_match (ratio : String → String → Nat)
    (df_source df_existing : List Row) (threshold : Nat) :
    find_new_articles ratio df_source df_existing threshold =
      findNewArticlesSpec ratio df_source df_existing threshold :=
  find_new_articles_eq_spec ratio df_source df_existing threshold

/-- Each title triple goes to exactly one of the two outputs, so the
survivor and report counts add up to the input count. -/
theorem specNews_add_specDups_length (ratio : String → String → Nat) (thr : Nat)
    (ets : List String) :
    ∀ ts : List (Row × Cell × String),
      (specNews ratio thr ets ts).length + (specDups ratio thr ets ts).length = ts.length := by
  intro ts
  induction ts with
  | nil => rfl
  | cons t ts ih =>
    cases hfq : firstQualifying ratio thr t.2.2 ets with
    | some m =>
      simp only [specNews, specDups, List.filterMap_cons, hfq] at ih ⊢
      simp [hfq, List.length_cons]
      omega
    | none =>
      simp only [specNews, specDups, List.filterMap_cons, hfq] at ih ⊢
      simp [hfq, List.length_cons]
      omega

/-- A successful triple extraction preserves the row count. -/
theorem titleTriples_ok_length :
    ∀ {src : List Row} {ts : List (Row × Cell × String)},
      titleTriples src = .ok ts → ts.length = src.length := by
  intro src
  induction src with
  | nil => intro ts h; cases h; rfl
  | cons r rs ih =>
    intro ts h
    simp only [titleTriples] at h
    cases hc : colGet r "Title" with
    | error e => rw [hc] at h; cases h
    | ok c =>
      rw [hc] at h
      cases ht : titleTriples rs with
      | error e => rw [ht] at h; cases h
      | ok ts1 =>
        rw [ht] at h
        cases h
        simp [ih ht]

/-- Helper for C1: on success, survivors plus duplicate reports count
the rows of the (filtered) source frame. -/
theorem find_new_articles_ok_counts {ratio : String → String → Nat}
    {src ex : List Row} {thr : Nat} {news : List Row} {dups : List DupInfo}
    (h : find_new_articles ratio src ex thr = .ok (news, dups)) :
    news.length + dups.length = src.length := by
  rw [find_new_articles_eq_spec] at h
  unfold findNewArticlesSpec at h
  cases he : existingNormTitles ex with
  | error e => rw [he] at h; cases h
  | ok ets =>
    rw [he] at h
    dsimp only at h
    cases ht : titleTriples src with
    | error e => rw [ht] at h; cases h
    | ok ts =>
      rw [ht] at h
      cases h
      rw [← titleTriples_ok_length ht]
      exact specNews_add_specDups_length ratio thr ets ts

/-- Lowering the threshold preserves having a qualifying match. -/
theorem firstQualifying_isSome_mono {ratio : String → String → Nat} {st : String}
    {ets : List String} {t1 t2 : Nat} (h : t1 ≤ t2)
    (hs : (firstQualifying ratio t2 st ets).isSome = true) :
    (firstQualifying ratio t1 st ets).isSome = true := by
  unfold firstQualifying at hs ⊢
  rw [Option.isSome_map'] at hs ⊢
  rw [List.find?_isSome] at hs ⊢
  obtain ⟨x, hx, hpx⟩ := hs
  exact ⟨x, hx, by simp at hpx ⊢; omega⟩

/-- Raising the threshold never adds a duplicate report. -/
theorem specDups_length_mono (ratio : String → String → Nat) (ets : List String)
    {t1 t2 : Nat} (h : t1 ≤ t2) :
    ∀ ts : List (Row × Cell × String),
      (specDups ratio t2 ets ts).length ≤ (specDups ratio t1 ets ts).length := by
  intro ts
  induction ts with
  | nil => exact Nat.le_refl _
  | cons t ts ih =>
    simp only [specDups, List.filterMap_cons]
    cases hb : firstQualifying ratio t2 t.2.2 ets with
    | none =>
      cases ha : firstQualifying ratio t1 t.2.2 ets with
      | none => exact ih
      | some m => simp only [Option.map_some', List.length_cons]; exact Nat.le_succ_of_le ih
    | some m =>
      have hs : (firstQualifying ratio t1 t.2.2 ets).isSome = true :=
        firstQualifying_isSome_mono h (by rw [hb]; rfl)
      cases ha : firstQualifying ratio t1 t.2.2 ets with
      | none => rw [ha] at hs; cases hs
      | some m1 =>
        simp only [Option.map_some', List.length_cons]
        exact Nat.succ_le_succ ih

/-- A concrete similarity function for exercising the detector: 100 on
identical strings, 0 otherwise (a valid score function in `[0,100]`
agreeing with `fuzz.ratio` on identical strings). -/
def eqRatio : String → String → Nat := fun a b => if a = b then 100 else 0

/-- C8: duplicate detection is monotonic in the threshold — for fixed
source and reference records and thresholds `t1 ≤ t2` in `[0,100]`, the
number of duplicates detected at `t2` is at most the number detected at
`t1`. -/
theorem c8_duplicates_monotone_in_threshold (ratio : String → String → Nat)
    (src ex : List Row) (t1 t2 : Nat) (n1 n2 : List Row) (d1 d2 : List DupInfo)
    (h12 : t1 ≤ t2) (h100 : t2 ≤ 100)
    (ha : find_new_articles ratio src ex t1 = .ok (n1, d1))
    (hb : find_new_articles ratio src ex t2 = .ok (n2, d2)) :
    d2.length ≤ d1.length := by
  rw [find_new_articles_eq_spec] at ha hb
  unfold findNewArticlesSpec at ha hb
  cases he : existingNormTitles ex with
  | error e => rw [he] at ha; cases ha
  | ok ets =>
    rw [he] at ha hb
    dsimp only at ha hb
    cases ht : titleTriples src with
    | error e => rw [ht] at ha; cases ha
    | ok ts =>
      rw [ht] at ha hb
      cases ha
      cases hb
      exact specDups_length_mono ratio ets h12 ts

/-- Witness for C8 at a concrete input: one source row and one
reference row with equal titles, thresholds 50 and 100. -/
theorem c8_witness :
    ([⟨Cell.str "a", "a", 100⟩] : List DupInfo).length ≤
      ([⟨Cell.str "a", "a", 100⟩] : List DupInfo).length :=
  c8_duplicates_monotone_in_threshold eqRatio
    [[("Title", Cell.str "a")]] [[("Title", Cell.str "a")]] 50 100
    [] [] [⟨Cell.str "a", "a", 100⟩] [⟨Cell.str "a", "a", 100⟩]
    (by decide) (by decide) rfl rfl

/-- A reference row's normalized title lands in the normalized list. -/
theorem existingNormTitles_ok_mem :
    ∀ {ex : List Row} {ets : List String},
      existingNormTitles ex = .ok ets →
      ∀ {r : Row} {c : Cell}, r ∈ ex → colGet r "Title" = .ok c →
        normalize_title c ∈ ets := by
  intro ex
  induction ex with
  | nil => intro ets h r c hr; cases hr
  | cons r0 rs ih =>
    intro ets h r c hr hc
    simp only [existingNormTitles] at h
    cases h0 : colGet r0 "Title" with
    | error e => rw [h0] at h; cases h
    | ok c0 =>
      rw [h0] at h
      cases ht : existingNormTitles rs with
      | error e => rw [ht] at h; cases h
      | ok ts =>
        rw [ht] at h
        cases h
        rcases List.mem_cons.mp hr with h1 | h1
        · subst h1
          rw [h0] at hc
          cases hc
          exact List.mem_cons_self _ _
        · exact List.mem_cons_of_mem _ (ih ht h1 hc)

/-- A source row with its title cell appears among the title triples. -/
theorem titleTriples_ok_mem :
    ∀ {src : List Row} {ts : List (Row × Cell × String)},
      titleTriples src = .ok ts →
      ∀ {r : Row} {c : Cell}, r ∈ src → colGet r "Title" = .ok c →
        (r, c, normalize_title c) ∈ ts := by
  intro src
  induction src with
  | nil => intro ts h r c hr; cases hr
  | cons r0 rs ih =>
    intro ts h r c hr hc
    simp only [titleTriples] at h
    cases h0 : colGet r0 "Title" with
    | error e => rw [h0] at h; cases h
    | ok c0 =>
      rw [h0] at h
      cases ht : titleTriples rs with
      | error e => rw [ht] at h; cases h
      | ok ts1 =>
        rw [ht] at h
        cases h
        rcases List.mem_cons.mp hr with h1 | h1
        · subst h1
          rw [h0] at hc
          cases hc
          exact List.mem_cons_self _ _
        · exact List.mem_cons_of_mem _ (ih ht h1 hc)

/-- Every title triple is well-shaped: its cell is its row's title and
its string is that cell normalized. -/
theorem titleTriples_ok_shape :
    ∀ {src : List Row} {ts : List (Row × Cell × String)},
      titleTriples src = .ok ts →
      ∀ {t : Row × Cell × String}, t ∈ ts →
        colGet t.1 "Title" = .ok t.2.1 ∧ t.2.2 = normalize_title t.2.1 := by
  intro src
  induction src with
  | nil => intro ts h t ht; cases h; cases ht
  | cons r0 rs ih =>
    intro ts h t htm
    simp only [titleTriples] at h
    cases h0 : colGet r0 "Title" with
    | error e => rw [h0] at h; cases h
    | ok c0 =>
      rw [h0] at h
      cases ht : titleTriples rs with
      | error e => rw [ht] at h; cases h
      | ok ts1 =>
        rw [ht] at h
        cases h
        rcases List.mem_cons.mp htm with h1 | h1
        · subst h1; exact ⟨h0, rfl⟩
        · exact ih ht h1

/-- A surviving row comes from a triple with no qualifying match. -/
theorem specNews_mem {ratio : String → String → Nat} {thr : Nat} {ets : List String}
    {ts : List (Row × Cell × String)} {r : Row}
    (h : r ∈ specNews ratio thr ets ts) :
    ∃ t ∈ ts, t.1 = r ∧ firstQualifying ratio thr t.2.2 ets = none := by
  unfold specNews at h
  obtain ⟨t, htm, hf⟩ := List.mem_filterMap.mp h
  by_cases hs : (firstQualifying ratio thr t.2.2 ets).isSome = true
  · rw [if_pos hs] at hf; cases hf
  · rw [if_neg hs] at hf
    cases hf
    exact ⟨t, htm, rfl, Option.not_isSome_iff_eq_none.mp (by simpa using hs)⟩

/-- C9: a source record whose normalized title exactly equals some
normalized reference title is classified as a duplicate at every
threshold in `[0,100]`, because the similarity of identical strings is
the maximum score 100. -/
theorem c9_exact_normalized_match_always_duplicate
    (ratio : String → String → Nat) (hratio : ∀ s, ratio s s = 100)
    (src ex : List Row) (thr : Nat) (hthr : thr ≤ 100)
    (news : List Row) (dups : List DupInfo)
    (h : find_new_articles ratio src ex thr = .ok (news, dups))
    (r : Row) (hr : r ∈ src) (c : Cell) (hc : colGet r "Title" = .ok c)
    (r2 : Row) (hr2 : r2 ∈ ex) (c2 : Cell) (hc2 : colGet r2 "Title" = .ok c2)
    (heq : normalize_title c2 = normalize_title c) :
    r ∉ news := by
  rw [find_new_articles_eq_spec] at h
  unfold findNewArticlesSpec at h
  cases he : existingNormTitles ex with
  | error e => rw [he] at h; cases h
  | ok ets =>
    rw [he] at h
    dsimp only at h
    cases ht : titleTriples src with
    | error e => rw [ht] at h; cases h
    | ok ts =>
      rw [ht] at h
      cases h
      intro hmem
      obtain ⟨t, htm, ht1, hfq⟩ := specNews_mem hmem
      obtain ⟨hshape1, hshape2⟩ := titleTriples_ok_shape ht htm
      rw [ht1] at hshape1
      rw [hshape1] at hc
      cases hc
      have hets : normalize_title t.2.1 ∈ ets := by
        rw [← heq]
        exact existingNormTitles_ok_mem he hr2 hc2
      have hsome : (firstQualifying ratio thr t.2.2 ets).isSome = true := by
        unfold firstQualifying
        rw [Option.isSome_map', List.find?_isSome]
        refine ⟨normalize_title t.2.1, hets, ?_⟩
        rw [hshape2, hratio]
        simp
        omega
      rw [hfq] at hsome
      cases hsome

/-- Witness for C9: title `"A"` against reference title `" a "`
(both normalize to `"a"`) at threshold 100 with the concrete `eqRatio`;
the source row is excluded from the survivors. -/
theorem c9_witness : ([("Title", Cell.str "A")] : Row) ∉ ([] : List Row) :=
  c9_exact_normalized_match_always_duplicate eqRatio
    (fun s => if_pos rfl)
    [[("Title", Cell.str "A")]] [[("Title", Cell.str " a ")]] 100
    (Nat.le_refl 100)
    [] [⟨Cell.str "A", "a", 100⟩] rfl
    [("Title", Cell.str "A")] (List.mem_singleton.mpr rfl) (Cell.str "A") rfl
    [("Title", Cell.str " a ")] (List.mem_singleton.mpr rfl) (Cell.str " a ") rfl
    rfl

/-- With an empty keyword list no block is ever accepted. -/
theorem extractBlocks_nil_keywords (d : List NameEntry) :
    ∀ bs : List String, extractBlocks d [] bs = ([], [], []) := by
  intro bs
  induction bs with
  | nil => rfl
  | cons b bs ih =>
    simp only [extractBlocks, List.any_nil, Bool.false_eq_true, if_false, ih]
    split <;> rfl

/-- C6: the extractor returns all-empty output with count 0 whenever
the affiliation string is missing (NaN) or empty, for every full-name
string and keyword argument; and with an empty keyword list no block is
ever accepted, so the output is likewise all-empty with count 0 for
every affiliation and full-name string. -/
theorem c6_empty_affiliation_or_no_keywords :
    (∀ (afn : Cell) (kws : Option (List String)),
        extract_affiliation_authors .na afn kws = .ok ⟨"", "", "", 0⟩)
    ∧ (∀ (afn : Cell) (kws : Option (List String)),
        extract_affiliation_authors (.str "") afn kws = .ok ⟨"", "", "", 0⟩)
    ∧ (∀ (awa afn : Cell),
        extract_affiliation_authors awa afn (some []) = .ok ⟨"", "", "", 0⟩) := by
  refine ⟨fun afn kws => rfl, fun afn kws => ?_, fun awa afn => ?_⟩
  · cases kws with
    | none => rfl
    | some l => simp [extract_affiliation_authors, extractBlocks_nil_keywords,
        extractBlocks, pySplit, splitChar, pyStrip, pyStripL, pyJoin]
  · cases awa with
    | na => rfl
    | str s => simp [extract_affiliation_authors, extractBlocks_nil_keywords, pyJoin]
    | int n => simp [extract_affiliation_authors, extractBlocks_nil_keywords, pyJoin]

/-- The claim's count (C5 as stated): number of non-empty blocks in
which some keyword occurs case-insensitively as a substring, with no
well-formedness requirement on the block's comma structure. -/
def claimAcceptedCount (awa : Cell) (kws : List String) : Nat :=
  match awa with
  | .na => 0
  | c =>
    ((pySplit ';' (cellStr c)).filter (fun b =>
      pyStrip b != ""
        && kws.any (fun k => pyContains (pyLower (pyStrip b)) (pyLower k)))).length

/-- The count the code actually produces: accepted blocks that also
have at least two comma-separated parts. -/
def acceptedWellFormedCount (awa : Cell) (kws : List String) : Nat :=
  match awa with
  | .na => 0
  | c =>
    ((pySplit ';' (cellStr c)).filter (fun b =>
      pyStrip b != ""
        && kws.any (fun k => pyContains (pyLower (pyStrip b)) (pyLower k))
        && decide (2 ≤ (pySplit ',' (pyStrip b)).length))).length

/-- The short-name list counts exactly the accepted well-formed blocks. -/
theorem extractBlocks_short_length (d : List NameEntry) (kws : List String) :
    ∀ bs : List String,
      (extractBlocks d kws bs).1.length =
        (bs.filter (fun b =>
          pyStrip b != ""
            && kws.any (fun k => pyContains (pyLower (pyStrip b)) (pyLower k))
            && decide (2 ≤ (pySplit ',' (pyStrip b)).length))).length := by
  intro bs
  induction bs with
  | nil => rfl
  | cons b bs ih =>
    simp only [extractBlocks, List.filter_cons]
    by_cases h1 : pyStrip b == ""
    · have : (pyStrip b != ""
          && kws.any (fun k => pyContains (pyLower (pyStrip b)) (pyLower k))
          && decide (2 ≤ (pySplit ',' (pyStrip b)).length)) = false := by
        simp_all
      rw [if_pos h1, this]
      simpa using ih
    · rw [if_neg h1]
      by_cases h2 : kws.any (fun k => pyContains (pyLower (pyStrip b)) (pyLower k))
      · rw [if_pos h2]
        by_cases h3 : 2 ≤ (pySplit ',' (pyStrip b)).length
        · have hp : (pyStrip b != ""
              && kws.any (fun k => pyContains (pyLower (pyStrip b)) (pyLower k))
              && decide (2 ≤ (pySplit ',' (pyStrip b)).length)) = true := by
            simp_all
          rw [if_pos h3, hp]
          cases hd : dictFind d (pyStrip ((pySplit ',' (pyStrip b)).headD "")) with
          | some fi => simpa using ih
          | none => simpa using ih
        · have hp : (pyStrip b != ""
              && kws.any (fun k => pyContains (pyLower (pyStrip b)) (pyLower k))
              && decide (2 ≤ (pySplit ',' (pyStrip b)).length)) = false := by
            simp_all
          rw [if_neg h3, hp]
          simpa using ih
      · have hp : (pyStrip b != ""
            && kws.any (fun k => pyContains (pyLower (pyStrip b)) (pyLower k))
            && decide (2 ≤ (pySplit ',' (pyStrip b)).length)) = false := by
          simp_all
        rw [if_neg h2, hp]
        simpa using ih

/-- Counterexample to C5 as stated: the single block `"Khazar"` is
non-empty and matched by the keyword `"Khazar"`, so the claim predicts
count 1, but having fewer than two comma-separated parts it is skipped
and the code returns count 0. -/
theorem c5_counterexample :
    (extract_affiliation_authors (.str "Khazar") .na (some ["Khazar"])).map Extracted.count
        = .ok 0
    ∧ claimAcceptedCount (.str "Khazar") ["Khazar"] = 1 := ⟨rfl, rfl⟩

/-- C5 (amended): the extractor's count equals the number of accepted
blocks that also have at least two comma-separated parts — a non-empty
block is accepted when some keyword occurs case-insensitively as a
substring anywhere in its text, but a matched block with fewer than two
comma-separated parts is skipped, not counted. -/
theorem c5_count_matches_wellformed_accepted_blocks
    (awa afn : Cell) (kws : List String) :
    (extract_affiliation_authors awa afn (some kws)).map Extracted.count
      = .ok (acceptedWellFormedCount awa kws) := by
  cases awa with
  | na => rfl
  | str s =>
    simp only [extract_affiliation_authors, acceptedWellFormedCount, Except.map]
    rw [extractBlocks_short_length]
  | int n =>
    simp only [extract_affiliation_authors, acceptedWellFormedCount, Except.map]
    rw [extractBlocks_short_length]

/-- Searching a reversed list is taking the last match. -/
theorem find?_reverse_eq_getLast?_filter {α : Type} (p : α → Bool) :
    ∀ l : List α, l.reverse.find? p = (l.filter p).getLast? := by
  intro l
  induction l with
  | nil => rfl
  | cons a l ih =>
    rw [List.reverse_cons, List.find?_append, ih, List.filter_cons]
    by_cases h : p a
    · rw [if_pos h]
      cases hf : l.filter p with
      | nil => simp [List.find?, h]
      | cons x xs =>
        cases hv : (x :: xs).getLast? with
        | none => simp at hv
        | some v => simp [List.getLast?_cons_cons, hv, Option.or]
    · rw [if_neg h]
      simp [List.find?, h]

/-- Python-dict lookup over the entry list resolves to the latest entry
with the key. -/
theorem dictFind_eq_latestLookup (d : List NameEntry) (k : String) :
    dictFind d k = latestLookup d k := by
  unfold dictFind latestLookup
  rw [find?_reverse_eq_getLast?_filter]

/-- The block loop is unchanged when the dictionary lookup is replaced
by the latest-entry lookup. -/
theorem extractBlocks_eq_latest (d : List NameEntry) (kws : List String) :
    ∀ bs : List String, extractBlocks d kws bs = extractBlocksLatest d kws bs := by
  intro bs
  induction bs with
  | nil => rfl
  | cons b bs ih =>
    simp only [extractBlocks, extractBlocksLatest, ih, dictFind_eq_latestLookup]

/-- C10: in the identifier lookup built from the full-name string, a
last name resolves to the latest well-formed entry carrying it —
earlier entries with the same last name contribute nothing — and
consequently the extractor's with-ID and full-name outputs for every
accepted block come from that latest entry. -/
theorem c10_last_name_entry_overwrite :
    (∀ (author_full_names : Cell) (ln : String),
        dictFind (buildFullNamesDict author_full_names) ln =
          (((buildFullNamesDict author_full_names).filter
              (fun e => e.1 == ln)).getLast?).map (fun e => e.2))
    ∧ (∀ (awa afn : Cell) (kws : Option (List String)),
        extract_affiliation_authors awa afn kws =
          extractAffiliationAuthorsLatest awa afn kws) := by
  constructor
  · intro afn ln
    exact dictFind_eq_latestLookup (buildFullNamesDict afn) ln
  · intro awa afn kws
    cases awa with
    | na => rfl
    | str s =>
      simp only [extract_affiliation_authors, extractAffiliationAuthorsLatest]
      cases kws with
      | none => rfl
      | some l => dsimp only; rw [extractBlocks_eq_latest]
    | int n =>
      simp only [extract_affiliation_authors, extractAffiliationAuthorsLatest]
      cases kws with
      | none => rfl
      | some l => dsimp only; rw [extractBlocks_eq_latest]

/-- The trimmed non-empty author names of the resolver's input. -/
def authorsOf (s : Option String) : List String :=
  match s with
  | none => []
  | some s => ((pySplit ';' s).map pyStrip).filter (fun a => a != "")

/-- Declarative companion (§4.4): was some trimmed non-empty author
name matched by no mapping row. -/
def unresolvedExists (s : Option String) (m : List DeptRow) : Bool :=
  (authorsOf s).any (fun a => (m.filter (deptRowMatches a)).isEmpty)

/-- Declarative companion (§4.4): every matching row's non-blank
department, author by author, in order. -/
def collectDepts (m : List DeptRow) : List String → List String
  | [] => []
  | a :: tl => (m.filter (deptRowMatches a)).filterMap deptRowValue ++ collectDepts m tl

/-- The author loop computes the collected departments and the
unmatched-author list. -/
theorem deptLoop_eq (m : List DeptRow) :
    ∀ l : List String,
      deptLoop m l =
        (collectDepts m l, l.filter (fun a => (m.filter (deptRowMatches a)).isEmpty)) := by
  intro l
  induction l with
  | nil => rfl
  | cons a tl ih =>
    simp only [deptLoop, collectDepts, List.filter_cons, ih]
    by_cases h : (m.filter (deptRowMatches a)).isEmpty
    · have h0 : m.filter (deptRowMatches a) = [] := by
        cases hm : m.filter (deptRowMatches a) with
        | nil => rfl
        | cons x xs => rw [hm] at h; cases h
      simp [h, h0]
    · simp [h]

/-- An empty filter result means no element satisfies the predicate. -/
theorem filter_isEmpty_eq_not_any {α : Type} (p : α → Bool) (l : List α) :
    (l.filter p).isEmpty = !(l.any p) := by
  induction l with
  | nil => rfl
  | cons a tl ih =>
    by_cases h : p a
    · simp [List.filter_cons, h]
    · simp [List.filter_cons, h, ih]

/-- A string that strips to empty is all whitespace. -/
theorem all_space_of_strip_empty {s : String} (h : pyStrip s = "") :
    ∀ c ∈ s.data, isPySpace c := by
  intro c hc
  unfold pyStrip pyStripL at h
  have h1 : ((s.data.dropWhile isPySpace).reverse.dropWhile isPySpace).reverse = [] := by
    have := congrArg String.data h
    simpa using this
  rw [List.reverse_eq_nil_iff, List.dropWhile_eq_nil_iff] at h1
  have h2 : ∀ x ∈ s.data.dropWhile isPySpace, isPySpace x := by
    intro x hx
    exact h1 x (List.mem_reverse.mpr hx)
  have hsplit : c ∈ s.data.takeWhile isPySpace ++ s.data.dropWhile isPySpace := by
    rw [List.takeWhile_append_dropWhile]
    exact hc
  rcases List.mem_append.mp hsplit with hk | hk
  · exact List.mem_takeWhile_imp hk
  · exact h2 c hk

/-- A list without the separator splits to itself. -/
theorem splitChar_no_sep {sep : Char} :
    ∀ {cs : List Char}, (∀ c ∈ cs, (c == sep) = false) → splitChar sep cs = [cs] := by
  intro cs
  induction cs with
  | nil => intro h; rfl
  | cons c tl ih =>
    intro h
    have hc : (c == sep) = false := h c (List.mem_cons_self _ _)
    have htl := ih (fun x hx => h x (List.mem_cons_of_mem _ hx))
    simp only [splitChar, htl, hc]
    rfl

/-- A whitespace-only author string yields no trimmed non-empty
author names. -/
theorem authorsOf_nil_of_strip_empty {s : String} (h : pyStrip s = "") :
    authorsOf (some s) = [] := by
  have hns : ∀ c ∈ s.data, (c == ';') = false := by
    intro c hc
    have := all_space_of_strip_empty h c hc
    cases hcc : c == ';' with
    | false => rfl
    | true =>
      rw [eq_of_beq hcc] at this
      cases this
  unfold authorsOf pySplit
  dsimp only
  rw [splitChar_no_sep hns]
  have hmk : pyStrip (String.mk s.data) = "" := h
  simp [hmk]

/-- C7: the resolver sets the highlight reason to NotFound when at
least one trimmed non-empty author name matches no mapping row
(overriding everything else), otherwise to Multiple when the
deduplicated department list has more than one element, otherwise to
None; and the `needs_highlight` flag is true exactly when the reason is
not None. -/
theorem c7_highlight_decision (authors_string : Option String) (m : List DeptRow) :
    ((map_departments authors_string m).reason =
      (if unresolvedExists authors_string m then some HighlightReason.not_found
       else if 1 < (dedup (collectDepts m (authorsOf authors_string))).length then
         some HighlightReason.multiple
       else none))
    ∧ (map_departments authors_string m).needs_highlight =
        ((map_departments authors_string m).reason).isSome := by
  cases authors_string with
  | none =>
    constructor
    · simp [map_departments, unresolvedExists, authorsOf, collectDepts, dedup, dedupAux]
    · rfl
  | some s =>
    by_cases hs : pyStrip s == ""
    · have hnil : authorsOf (some s) = [] := authorsOf_nil_of_strip_empty (eq_of_beq hs)
      constructor
      · simp [map_departments, hs, unresolvedExists, hnil, collectDepts, dedup, dedupAux]
      · simp [map_departments, hs]
    · have hbody : map_departments (some s) m =
          (let authors := ((pySplit ';' s).map pyStrip).filter (fun a => a != "")
           let r := deptLoop m authors
           let departments := dedup r.1
           if r.2.isEmpty then
             if 1 < departments.length then
               ⟨pyJoin "; " departments, true, some .multiple, r.2⟩
             else
               ⟨pyJoin "; " departments, false, none, r.2⟩
           else
             ⟨pyJoin "; " departments, true, some .not_found, r.2⟩ : DeptResult) := by
        simp [map_departments, hs]
      have hauth : authorsOf (some s) = ((pySplit ';' s).map pyStrip).filter (fun a => a != "") := rfl
      rw [hbody]
      dsimp only
      rw [deptLoop_eq]
      rw [← hauth]
      rw [filter_isEmpty_eq_not_any]
      unfold unresolvedExists
      by_cases hu : (authorsOf (some s)).any (fun a => (m.filter (deptRowMatches a)).isEmpty)
      · rw [hu]
        simp
      · rw [Bool.not_eq_true] at hu
        rw [hu]
        by_cases hm : 1 < (dedup (collectDepts m (authorsOf (some s)))).length
        · simp [hm]
        · simp [hm]

/-- C4: `process_scopus_data` has no `affiliation_exclude_keywords`
parameter, so a call supplying that eighth keyword argument — as the
application's own call in `src/app.py` lines 203-212 does — is rejected
by Python keyword binding with a `TypeError` instead of returning a
result pair. -/
theorem c4_eighth_argument_rejected :
    pyKeywordsAccepted processScopusDataParams appProcessCallKeywordArgs = false
    ∧ "affiliation_exclude_keywords" ∉ processScopusDataParams := by
  constructor
  · rfl
  · intro h
    simp [processScopusDataParams] at h

/-- The year-filter stage never touches the later-stage counters. -/
theorem applyYearFilter_preserves {year : Option YearParam} {src ex : List Row}
    {stats : Stats} {out : List Row × List Row × Stats}
    (h : applyYearFilter year src ex stats = .ok out) :
    out.2.2.after_title_filter = stats.after_title_filter
    ∧ out.2.2.new_articles = stats.new_articles
    ∧ out.2.2.duplicates_found = stats.duplicates_found
    ∧ out.2.2.affiliated_articles = stats.affiliated_articles
    ∧ out.2.2.no_affiliated_authors = stats.no_affiliated_authors := by
  cases year with
  | none =>
    cases h
    exact ⟨rfl, rfl, rfl, rfl, rfl⟩
  | some yp =>
    simp only [applyYearFilter] at h
    cases h1 : filterYearRows (yearsList yp) src with
    | error e => rw [h1] at h; cases h
    | ok src1 =>
      rw [h1] at h
      cases h2 : filterYearRows (yearsList yp) ex with
      | error e => rw [h2] at h; cases h
      | ok ex1 =>
        rw [h2] at h
        cases h
        exact ⟨rfl, rfl, rfl, rfl, rfl⟩

/-- The title-filter stage records the surviving count in
`after_title_filter` and never touches the later-stage counters. -/
theorem applyTitleFilter_ok {tkw : Option (List String)} {src : List Row}
    {stats : Stats} {out : List Row × Stats}
    (h : applyTitleFilter tkw src stats = .ok out) :
    out.2.after_title_filter = out.1.length
    ∧ out.2.new_articles = stats.new_articles
    ∧ out.2.duplicates_found = stats.duplicates_found
    ∧ out.2.affiliated_articles = stats.affiliated_articles
    ∧ out.2.no_affiliated_authors = stats.no_affiliated_authors := by
  cases tkw with
  | none =>
    cases h
    exact ⟨rfl, rfl, rfl, rfl, rfl⟩
  | some kws =>
    simp only [applyTitleFilter] at h
    by_cases hk : kws.isEmpty
    · rw [if_pos hk] at h
      cases h
      exact ⟨rfl, rfl, rfl, rfl, rfl⟩
    · rw [if_neg hk] at h
      cases h1 : filterTitleRows kws src with
      | error e => rw [h1] at h; cases h
      | ok src1 =>
        rw [h1] at h
        cases h
        exact ⟨rfl, rfl, rfl, rfl, rfl⟩

/-- Through the per-article loop, the two per-record counters increase
by exactly the number of rows processed, while the detector-stage
counters are untouched. -/
theorem processLoop_stats (kws : Option (List String)) (dept : List DeptRow) :
    ∀ (rows : List Row) (stats : Stats) (out : List ResultRow × Stats),
      processLoop kws dept rows stats = .ok out →
      out.2.affiliated_articles + out.2.no_affiliated_authors
          = stats.affiliated_articles + stats.no_affiliated_authors + rows.length
      ∧ out.2.new_articles = stats.new_articles
      ∧ out.2.duplicates_found = stats.duplicates_found
      ∧ out.2.after_title_filter = stats.after_title_filter := by
  intro rows
  induction rows with
  | nil =>
    intro stats out h
    cases h
    exact ⟨by simp, rfl, rfl, rfl⟩
  | cons row rest ih =>
    intro stats out h
    simp only [processLoop] at h
    cases h1 : colGet row "Authors with affiliations" with
    | error e => rw [h1] at h; cases h
    | ok awa =>
      rw [h1] at h
      dsimp only at h
      cases h2 : colGet row "Author full names" with
      | error e => rw [h2] at h; cases h
      | ok afn =>
        rw [h2] at h
        dsimp only at h
        cases h3 : extract_affiliation_authors awa afn kws with
        | error e => rw [h3] at h; cases h
        | ok ainfo =>
          rw [h3] at h
          dsimp only at h
          by_cases hz : (ainfo.count == 0) = true
          · rw [if_pos hz] at h
            have hrec := ih _ _ h
            obtain ⟨ha, hb, hc, hd⟩ := hrec
            dsimp only at ha hb hc hd
            refine ⟨?_, hb, hc, hd⟩
            simp only [List.length_cons]
            omega
          · rw [if_neg hz] at h
            cases h4 : colGet row "Title" with
            | error e => rw [h4] at h; cases h
            | ok titleCell =>
              rw [h4] at h
              dsimp only at h
              by_cases hh : (map_departments (some ainfo.authors_short) dept).needs_highlight = true
              · rw [if_pos hh] at h
                cases h5 : processLoop kws dept rest
                    { stats with
                      affiliated_articles := stats.affiliated_articles + 1
                      highlighted_depts := stats.highlighted_depts + 1 } with
                | error e => rw [h5] at h; cases h
                | ok p =>
                  rw [h5] at h
                  obtain ⟨rs, st⟩ := p
                  cases h
                  have hrec := ih _ _ h5
                  obtain ⟨ha, hb, hc, hd⟩ := hrec
                  dsimp only at ha hb hc hd ⊢
                  refine ⟨?_, hb, hc, hd⟩
                  simp only [List.length_cons]
                  omega
              · rw [if_neg hh] at h
                cases h5 : processLoop kws dept rest
                    { stats with affiliated_articles := stats.affiliated_articles + 1 } with
                | error e => rw [h5] at h; cases h
                | ok p =>
                  rw [h5] at h
                  obtain ⟨rs, st⟩ := p
                  cases h
                  have hrec := ih _ _ h5
                  obtain ⟨ha, hb, hc, hd⟩ := hrec
                  dsimp only at ha hb hc hd ⊢
                  refine ⟨?_, hb, hc, hd⟩
                  simp only [List.length_cons]
                  omega

/-- C1: after every successful pipeline run,
`affiliated_articles + no_affiliated_authors = new_articles` and
`new_articles + duplicates_found = after_title_filter`, for every
combination of inputs and configuration, including the early return
when no records survive duplicate detection. -/
theorem c1_statistics_consistent (ratio : String → String → Nat)
    (df_source df_existing : List Row) (df_dept_mapping : List DeptRow)
    (threshold : Nat) (year : Option YearParam)
    (title_exclude_keywords affiliation_keywords : Option (List String))
    (res : List ResultRow) (stats : Stats)
    (h : process_scopus_data ratio df_source df_existing df_dept_mapping
          threshold year title_exclude_keywords affiliation_keywords = .ok (res, stats)) :
    stats.affiliated_articles + stats.no_affiliated_authors = stats.new_articles
    ∧ stats.new_articles + stats.duplicates_found = stats.after_title_filter := by
  simp only [process_scopus_data] at h
  cases hy : applyYearFilter year df_source df_existing
      { original_scopus_count := df_source.length
        original_united_count := df_existing.length
        after_year_filter_scopus := 0
        after_year_filter_united := 0
        after_title_filter := 0
        excluded_by_title := 0
        new_articles := 0
        duplicates_found := 0
        affiliated_articles := 0
        no_affiliated_authors := 0
        highlighted_depts := 0 } with
  | error e => rw [hy] at h; cases h
  | ok y =>
    rw [hy] at h
    obtain ⟨src1, ex1, stats1⟩ := y
    dsimp only at h
    cases ht : applyTitleFilter title_exclude_keywords src1 stats1 with
    | error e => rw [ht] at h; cases h
    | ok t =>
      rw [ht] at h
      obtain ⟨src2, stats2⟩ := t
      dsimp only at h
      cases hf : find_new_articles ratio src2 ex1 threshold with
      | error e => rw [hf] at h; cases h
      | ok p =>
        rw [hf] at h
        obtain ⟨dfNew, duplicates⟩ := p
        dsimp only at h
        have hyp := applyYearFilter_preserves hy
        have htp := applyTitleFilter_ok ht
        dsimp only at hyp htp
        have hcounts : dfNew.length + duplicates.length = src2.length :=
          find_new_articles_ok_counts hf
        by_cases he : dfNew.isEmpty = true
        · rw [if_pos he] at h
          cases h
          have hlen : dfNew.length = 0 := by
            cases dfNew with
            | nil => rfl
            | cons a l => cases he
          constructor
          · dsimp only
            omega
          · dsimp only
            omega
        · rw [if_neg he] at h
          have hloop := processLoop_stats affiliation_keywords df_dept_mapping dfNew _ _ h
          obtain ⟨ha, hb, hc, hd⟩ := hloop
          dsimp only at ha hb hc hd
          constructor
          · omega
          · omega

/-- Witness for C1 at a concrete successful run: one source article
with an affiliated author, empty reference corpus, empty department
table, keyword `"Khazar"`. -/
theorem c1_witness : (1 + 0 = 1 ∧ 1 + 0 = 1) :=
  c1_statistics_consistent eqRatio
    [[("Title", Cell.str "T"),
      ("Authors with affiliations", Cell.str "Smith, John, Khazar University"),
      ("Author full names", Cell.str "Smith, John (123)")]]
    [] [] 95 none none (some ["Khazar"])
    [{ departament := ""
       authors := "Smith, J."
       authorsAll := Cell.str ""
       author_full_names := Cell.str "Smith, John (123)"
       title := Cell.str "T"
       year := Cell.str ""
       source_title := Cell.str ""
       volume := Cell.str ""
       issue := Cell.str ""
       art_no := Cell.str ""
       page_start := Cell.str ""
       page_end := Cell.str ""
       page_count := Cell.str ""
       source := "Scopus"
       tqdimat := ""
       data_col := ""
       amount := ""
       quartil := ""
       highlight := true
       highlight_reason := some HighlightReason.not_found }]
    { original_scopus_count := 1
      original_united_count := 0
      after_year_filter_scopus := 1
      after_year_filter_united := 0
      after_title_filter := 1
      excluded_by_title := 0
      new_articles := 1
      duplicates_found := 0
      affiliated_articles := 1
      no_affiliated_authors := 0
      highlighted_depts := 1 }
    rfl

/-- A present column is read without error. -/
theorem colGet_ok_of_isSome {r : Row} {c : String}
    (h : (colFind r c).isSome = true) : ∃ v, colGet r c = .ok v := by
  unfold colGet
  cases hv : colFind r c with
  | none => rw [hv] at h; cases h
  | some v => exact ⟨v, rfl⟩

/-- The year filter succeeds on rows carrying a `Year` column and
returns a selection of its input rows. -/
theorem filterYearRows_ok_of (ys : List Int) :
    ∀ {rows : List Row}, (∀ r ∈ rows, (colFind r "Year").isSome = true) →
      ∃ out, filterYearRows ys rows = .ok out ∧ ∀ r ∈ out, r ∈ rows := by
  intro rows
  induction rows with
  | nil => intro hcols; exact ⟨[], rfl, by intro r hr; cases hr⟩
  | cons r0 rs ih =>
    intro hcols
    obtain ⟨v, hv⟩ := colGet_ok_of_isSome (hcols r0 (List.mem_cons_self _ _))
    obtain ⟨out, hout, hsub⟩ := ih (fun r hr => hcols r (List.mem_cons_of_mem _ hr))
    refine ⟨if cellInYears v ys then r0 :: out else out, ?_, ?_⟩
    · simp only [filterYearRows, hv, hout]
    · by_cases hc : cellInYears v ys
      · rw [if_pos hc]
        intro r hr
        rcases List.mem_cons.mp hr with h0 | h0
        · exact h0 ▸ List.mem_cons_self _ _
        · exact List.mem_cons_of_mem _ (hsub r h0)
      · rw [if_neg hc]
        intro r hr
        exact List.mem_cons_of_mem _ (hsub r hr)

/-- The title filter succeeds on rows carrying a `Title` column and
returns a selection of its input rows. -/
theorem filterTitleRows_ok_of (kws : List String) :
    ∀ {rows : List Row}, (∀ r ∈ rows, (colFind r "Title").isSome = true) →
      ∃ out, filterTitleRows kws rows = .ok out ∧ ∀ r ∈ out, r ∈ rows := by
  intro rows
  induction rows with
  | nil => intro hcols; exact ⟨[], rfl, by intro r hr; cases hr⟩
  | cons r0 rs ih =>
    intro hcols
    obtain ⟨v, hv⟩ := colGet_ok_of_isSome (hcols r0 (List.mem_cons_self _ _))
    obtain ⟨out, hout, hsub⟩ := ih (fun r hr => hcols r (List.mem_cons_of_mem _ hr))
    refine ⟨if shouldKeepTitle kws v then r0 :: out else out, ?_, ?_⟩
    · simp only [filterTitleRows, hv, hout]
    · by_cases hc : shouldKeepTitle kws v
      · rw [if_pos hc]
        intro r hr
        rcases List.mem_cons.mp hr with h0 | h0
        · exact h0 ▸ List.mem_cons_self _ _
        · exact List.mem_cons_of_mem _ (hsub r h0)
      · rw [if_neg hc]
        intro r hr
        exact List.mem_cons_of_mem _ (hsub r hr)

/-- Normalizing the reference titles succeeds when every reference row
carries a `Title` column. -/
theorem existingNormTitles_ok_of :
    ∀ {rows : List Row}, (∀ r ∈ rows, (colFind r "Title").isSome = true) →
      ∃ ets, existingNormTitles rows = .ok ets := by
  intro rows
  induction rows with
  | nil => intro hcols; exact ⟨[], rfl⟩
  | cons r0 rs ih =>
    intro hcols
    obtain ⟨v, hv⟩ := colGet_ok_of_isSome (hcols r0 (List.mem_cons_self _ _))
    obtain ⟨ets, hets⟩ := ih (fun r hr => hcols r (List.mem_cons_of_mem _ hr))
    exact ⟨normalize_title v :: ets, by simp only [existingNormTitles, hv, hets]⟩

/-- The detector's row loop succeeds when every source row carries a
`Title` column, and survivors are source rows. -/
theorem findNewGo_ok_of (ratio : String → String → Nat) (thr : Nat) (ets : List String) :
    ∀ {rows : List Row}, (∀ r ∈ rows, (colFind r "Title").isSome = true) →
      ∃ p, findNewGo ratio thr ets rows = .ok p ∧ ∀ r ∈ p.1, r ∈ rows := by
  intro rows
  induction rows with
  | nil => exact fun hcols => ⟨([], []), rfl, by intro r hr; cases hr⟩
  | cons r0 rs ih =>
    intro hcols
    obtain ⟨v, hv⟩ := colGet_ok_of_isSome (hcols r0 (List.mem_cons_self _ _))
    obtain ⟨p, hp, hsub⟩ := ih (fun r hr => hcols r (List.mem_cons_of_mem _ hr))
    obtain ⟨news, dups⟩ := p
    cases hscan : dupScan ratio (normalize_title v) thr ets (0, "") with
    | some m =>
      refine ⟨(news, ⟨v, m.1, m.2⟩ :: dups), ?_, ?_⟩
      · simp only [findNewGo, hv, hscan, hp]
      · intro r hr
        exact List.mem_cons_of_mem _ (hsub r hr)
    | none =>
      refine ⟨(r0 :: news, dups), ?_, ?_⟩
      · simp only [findNewGo, hv, hscan, hp]
      · intro r hr
        rcases List.mem_cons.mp hr with h0 | h0
        · exact h0 ▸ List.mem_cons_self _ _
        · exact List.mem_cons_of_mem _ (hsub r h0)

/-- With an actual keyword list the extractor never raises. -/
theorem extract_some_keywords_ok (awa afn : Cell) (kws : List String) :
    ∃ e, extract_affiliation_authors awa afn (some kws) = .ok e := by
  cases awa with
  | na => exact ⟨_, rfl⟩
  | str s => exact ⟨_, rfl⟩
  | int n => exact ⟨_, rfl⟩

/-- The per-article loop succeeds when every row carries the three
columns it reads and a keyword list is supplied. -/
theorem processLoop_ok_of (kws : List String) (dept : List DeptRow) :
    ∀ {rows : List Row},
      (∀ r ∈ rows,
        (colFind r "Title").isSome = true
        ∧ (colFind r "Authors with affiliations").isSome = true
        ∧ (colFind r "Author full names").isSome = true) →
      ∀ stats, ∃ out, processLoop (some kws) dept rows stats = .ok out := by
  intro rows
  induction rows with
  | nil => exact fun hcols stats => ⟨([], stats), rfl⟩
  | cons r0 rs ih =>
    intro hcols stats
    obtain ⟨ht, ha, hf⟩ := hcols r0 (List.mem_cons_self _ _)
    obtain ⟨awa, hawa⟩ := colGet_ok_of_isSome ha
    obtain ⟨afn, hafn⟩ := colGet_ok_of_isSome hf
    obtain ⟨titleCell, htc⟩ := colGet_ok_of_isSome ht
    obtain ⟨ainfo, hai⟩ := extract_some_keywords_ok awa afn kws
    have ihs := fun stats => ih (fun r hr => hcols r (List.mem_cons_of_mem _ hr)) stats
    obtain ⟨out0, hout0⟩ := ihs
      { stats with no_affiliated_authors := stats.no_affiliated_authors + 1 }
    obtain ⟨out1, hout1⟩ := ihs
      { stats with
        affiliated_articles := stats.affiliated_articles + 1
        highlighted_depts := stats.highlighted_depts + 1 }
    obtain ⟨out2, hout2⟩ := ihs
      { stats with affiliated_articles := stats.affiliated_articles + 1 }
    cases hres : processLoop (some kws) dept (r0 :: rs) stats with
    | ok out => exact ⟨out, rfl⟩
    | error e =>
      exfalso
      simp only [processLoop, hawa, hafn, hai] at hres
      by_cases hz : (ainfo.count == 0) = true
      · rw [if_pos hz, hout0] at hres
        cases hres
      · rw [if_neg hz, htc] at hres
        dsimp only at hres
        by_cases hh : (map_departments (some ainfo.authors_short) dept).needs_highlight = true
        · rw [if_pos hh, hout1] at hres
          obtain ⟨rs1, st1⟩ := out1
          cases hres
        · rw [if_neg hh, hout2] at hres
          obtain ⟨rs2, st2⟩ := out2
          cases hres

/-- The year-filter stage succeeds when (if filtering is requested)
every row carries a `Year` column; its outputs are selections. -/
theorem applyYearFilter_ok_of (year : Option YearParam) (src ex : List Row) (stats : Stats)
    (hs : year ≠ none → ∀ r ∈ src, (colFind r "Year").isSome = true)
    (he : year ≠ none → ∀ r ∈ ex, (colFind r "Year").isSome = true) :
    ∃ out, applyYearFilter year src ex stats = .ok out
      ∧ (∀ r ∈ out.1, r ∈ src) ∧ (∀ r ∈ out.2.1, r ∈ ex) := by
  cases year with
  | none => exact ⟨_, rfl, fun r hr => hr, fun r hr => hr⟩
  | some yp =>
    obtain ⟨src1, hsrc1, hsub1⟩ := filterYearRows_ok_of (yearsList yp)
      (hs (by simp))
    obtain ⟨ex1, hex1, hsub2⟩ := filterYearRows_ok_of (yearsList yp)
      (he (by simp))
    refine ⟨(src1, ex1,
      { stats with
        after_year_filter_scopus := src1.length
        after_year_filter_united := ex1.length }), ?_, hsub1, hsub2⟩
    simp only [applyYearFilter, hsrc1, hex1]

/-- The title-filter stage succeeds when every source row carries a
`Title` column; its output is a selection. -/
theorem applyTitleFilter_ok_of (tkw : Option (List String)) (src : List Row) (stats : Stats)
    (hs : ∀ r ∈ src, (colFind r "Title").isSome = true) :
    ∃ out, applyTitleFilter tkw src stats = .ok out ∧ ∀ r ∈ out.1, r ∈ src := by
  cases tkw with
  | none => exact ⟨_, rfl, fun r hr => hr⟩
  | some kws =>
    by_cases hk : kws.isEmpty
    · refine ⟨(src, { stats with after_title_filter := src.length }), ?_, fun r hr => hr⟩
      simp only [applyTitleFilter]
      rw [if_pos hk]
    · obtain ⟨src1, hsrc1, hsub⟩ := filterTitleRows_ok_of kws hs
      refine ⟨(src1,
        { stats with
          excluded_by_title := src.length - src1.length
          after_title_filter := src1.length }), ?_, hsub⟩
      simp only [applyTitleFilter]
      rw [if_neg hk, hsrc1]

/-- The detector succeeds when all rows carry `Title` columns, and
survivors are source rows. -/
theorem find_new_articles_ok_of (ratio : String → String → Nat) (src ex : List Row)
    (thr : Nat)
    (hs : ∀ r ∈ src, (colFind r "Title").isSome = true)
    (he : ∀ r ∈ ex, (colFind r "Title").isSome = true) :
    ∃ p, find_new_articles ratio src ex thr = .ok p ∧ ∀ r ∈ p.1, r ∈ src := by
  obtain ⟨ets, hets⟩ := existingNormTitles_ok_of he
  obtain ⟨p, hp, hsub⟩ := findNewGo_ok_of ratio thr ets hs
  refine ⟨p, ?_, hsub⟩
  simp only [find_new_articles, hets, hp]

/-- Counterexample to C3 as stated: with the affiliation-keyword list
absent (`None`, the `process_scopus_data` default) and a source record
carrying a non-empty authors-with-affiliations string, iterating the
keyword list raises `TypeError`, which escapes `process_scopus_data`
instead of degrading to exclusion-with-counting. -/
theorem c3_counterexample :
    process_scopus_data eqRatio
      [[("Title", Cell.str "T"),
        ("Authors with affiliations", Cell.str "Smith, John, Somewhere"),
        ("Author full names", Cell.na)]]
      [] [] 95 none none none = .error .typeError := rfl

/-- C3 (amended): the pipeline returns normally — a well-formed result
and statistics — whenever every source row carries the `Title`,
`Authors with affiliations` and `Author full names` columns, every
reference row carries `Title`, rows carry `Year` when a year filter is
requested, and an affiliation-keyword list is supplied; the optional
passthrough columns may be absent and degrade to empty strings, and
records with no affiliated author degrade to exclusion with a counter
increment. -/
theorem c3_returns_normally_on_wellformed_input (ratio : String → String → Nat)
    (df_source df_existing : List Row) (df_dept_mapping : List DeptRow)
    (threshold : Nat) (year : Option YearParam)
    (title_exclude_keywords : Option (List String)) (kws : List String)
    (hsrc : ∀ r ∈ df_source,
      (colFind r "Title").isSome = true
      ∧ (colFind r "Authors with affiliations").isSome = true
      ∧ (colFind r "Author full names").isSome = true
      ∧ (year ≠ none → (colFind r "Year").isSome = true))
    (hex : ∀ r ∈ df_existing,
      (colFind r "Title").isSome = true
      ∧ (year ≠ none → (colFind r "Year").isSome = true)) :
    ∃ out, process_scopus_data ratio df_source df_existing df_dept_mapping
        threshold year title_exclude_keywords (some kws) = .ok out := by
  obtain ⟨y, hy, hysub1, hysub2⟩ := applyYearFilter_ok_of
    year df_source df_existing
    ( { original_scopus_count := df_source.length
        original_united_count := df_existing.length
        after_year_filter_scopus := 0
        after_year_filter_united := 0
        after_title_filter := 0
        excluded_by_title := 0
        new_articles := 0
        duplicates_found := 0
        affiliated_articles := 0
        no_affiliated_authors := 0
        highlighted_depts := 0 } )
    (fun hne r hr => (hsrc r hr).2.2.2 hne)
    (fun hne r hr => (hex r hr).2 hne)
  obtain ⟨src1, ex1, stats1⟩ := y
  obtain ⟨t, ht, htsub⟩ := applyTitleFilter_ok_of
    title_exclude_keywords src1 stats1
    (fun r hr => (hsrc r (hysub1 r hr)).1)
  obtain ⟨src2, stats2⟩ := t
  obtain ⟨p, hp, hpsub⟩ := find_new_articles_ok_of ratio src2 ex1 threshold
    (fun r hr => (hsrc r (hysub1 r (htsub r hr))).1)
    (fun r hr => (hex r (hysub2 r hr)).1)
  obtain ⟨dfNew, duplicates⟩ := p
  simp only at hysub1 htsub hpsub
  simp only [process_scopus_data, hy, ht, hp]
  by_cases hne : dfNew.isEmpty = true
  · rw [if_pos hne]
    exact ⟨_, rfl⟩
  · rw [if_neg hne]
    exact processLoop_ok_of kws df_dept_mapping
      (fun r hr =>
        ⟨(hsrc r (hysub1 r (htsub r (hpsub r hr)))).1,
         (hsrc r (hysub1 r (htsub r (hpsub r hr)))).2.1,
         (hsrc r (hysub1 r (htsub r (hpsub r hr)))).2.2.1⟩) _

/-- Witness for the amended C3: a source row carrying only the required
columns (no optional passthrough columns), empty reference corpus and
department table, keyword list `["Khazar"]`. -/
theorem c3_witness :
    ∃ out, process_scopus_data eqRatio
      [[("Title", Cell.str "T"),
        ("Authors with affiliations", Cell.str "Smith, John, Khazar University"),
        ("Author full names", Cell.str "Smith, John (123)")]]
      [] [] 95 none none (some ["Khazar"]) = .ok out :=
  c3_returns_normally_on_wellformed_input eqRatio
    [[("Title", Cell.str "T"),
      ("Authors with affiliations", Cell.str "Smith, John, Khazar University"),
      ("Author full names", Cell.str "Smith, John (123)")]]
    [] [] 95 none none ["Khazar"]
    (by intro r hr; simp at hr; subst hr; refine ⟨rfl, rfl, rfl, ?_⟩; intro hne; cases hne rfl)
    (by intro r hr; cases hr)
